import Mathlib

/-!
# Verification of `gitlabprojects.py`

A shallow embedding of the core of the GitLab-Notes repository's single
script `gitlabprojects.py`, together with theorems settling the frozen
claims about its specification.

The script has four parts, each embedded below from the source:

* `fetch_page` / `get_all_pages` — the speculative parallel paginator
  (lines 16-33).  Concurrency is modelled by an explicit *completion
  order*: a list of page numbers that is a permutation of the submitted
  pages `1..MAX_PAGES`; the body of the `as_completed` loop is run on the
  pages in that order.
* `has_user_commits` — the two-request commit probe (lines 36-45).
* the probe orchestration loop (lines 55-69), again over an explicit
  completion order of the project list.
* the sort and CSV report construction (lines 73-81).

HTTP is modelled by an environment mapping each request to an outcome:
either a transport-level exception of `session.get` or a response carrying
an HTTP status code and an already-decoded JSON array body.
`requests.Response.raise_for_status` raises exactly for statuses in
`[400, 600)`.
-/

/-- A project record as returned by the listing endpoint.  The script reads
`id`, `path_with_namespace`, `web_url` (always present under
`simple=true`) and `last_activity_at`, which may be absent from the JSON
object; absence is modelled by `Option`. -/
structure Project where
  id : Nat
  path_with_namespace : String
  last_activity_at : Option String
  web_url : String
deriving DecidableEq, Repr

/-- Outcome of one `session.get` for a page: either a transport-level
exception, or a response with an HTTP status code and a decoded JSON array
of project records. -/
inductive PageOutcome where
  | exn : PageOutcome
  | resp (status : Nat) (body : List Project) : PageOutcome
deriving DecidableEq, Repr

/-- Errors that `fetch_page` can raise: a transport error from
`session.get`, or the `requests.HTTPError` raised by
`r.raise_for_status()`. -/
inductive FetchError where
  | transport : FetchError
  | http (status : Nat) : FetchError
deriving DecidableEq, Repr

/-- `requests.Response.raise_for_status` raises an `HTTPError` exactly for
client-error (4xx) and server-error (5xx) statuses, i.e. statuses in
`[400, 600)`; any other status returns normally. -/
def raise_for_status (status : Nat) : Option FetchError :=
  if 400 ≤ status ∧ status < 600 then some (.http status) else none

/-- `fetch_page(url, params, page)` (lines 16-20): perform the GET for
`page`, call `raise_for_status`, and return `(page, r.json())`.  The
network is the environment `world : Nat → PageOutcome` giving each page's
outcome. -/
def fetch_page (world : Nat → PageOutcome) (page : Nat) :
    Except FetchError (Nat × List Project) :=
  match world page with
  | .exn => .error .transport
  | .resp status body =>
    match raise_for_status status with
    | some e => .error e
    | none => .ok (page, body)

/-- `MAX_PAGES = 200`, the speculative upper bound (line 24). -/
def MAX_PAGES : Nat := 200

/-- The page numbers submitted to the pool by `get_all_pages`:
`range(1, MAX_PAGES + 1)` (line 27), one task per page. -/
def submitted_pages : List Nat := List.range' 1 MAX_PAGES

/-- One progress observation printed by the paginator: page number and
item count (line 31). -/
structure PageObs where
  page : Nat
  items : Nat
deriving DecidableEq, Repr

/-- The `as_completed` consumption loop of `get_all_pages` (lines 28-32),
run over the completion order `order`.  For each completed future:
`future.result()` re-raises any exception of the task (stopping the loop
and propagating); otherwise, if the page data is non-empty, one progress
line is printed and `results` is extended with the data.  Returns the
progress observations emitted (in emission order) together with either the
propagated error or the accumulated `results`. -/
def drain (world : Nat → PageOutcome) :
    List Nat → List PageObs × Except FetchError (List Project)
  | [] => ([], .ok [])
  | p :: ps =>
    match fetch_page world p with
    | .error e => ([], .error e)
    | .ok (pg, data) =>
      if data.isEmpty then drain world ps
      else
        let rest := drain world ps
        (⟨pg, data.length⟩ :: rest.1, rest.2.map (fun l => data ++ l))

/-- `get_all_pages(url, params)` (lines 23-33): submit one `fetch_page`
task per page in `submitted_pages` and consume results in completion
order.  `order` is the completion order; callers quantify over all
permutations of `submitted_pages`. -/
def get_all_pages (world : Nat → PageOutcome) (order : List Nat) :
    List PageObs × Except FetchError (List Project) :=
  drain world order

/-- The decoded body of a page in `world`, for a page that returned a
response (transport errors yield `[]`; only used for non-erroring pages).
-/
def pageBody (world : Nat → PageOutcome) (p : Nat) : List Project :=
  match world p with
  | .exn => []
  | .resp _ body => body

/-- A page outcome on which `fetch_page` succeeds: a response whose status
does not trip `raise_for_status`. -/
def okPage (o : PageOutcome) : Prop :=
  ∃ status body, o = .resp status body ∧ raise_for_status status = none

instance (o : PageOutcome) : Decidable (okPage o) :=
  match o with
  | .exn => .isFalse (by rintro ⟨s, b, h, -⟩; cases h)
  | .resp s b =>
    if h : raise_for_status s = none then
      .isTrue ⟨s, b, rfl, h⟩
    else
      .isFalse (by rintro ⟨s', b', he, hn⟩; cases he; exact h hn)

/-- A page outcome that is a successful (status 200) response with a
non-empty item list. -/
def nonemptySuccess (o : PageOutcome) : Prop :=
  ∃ body, o = .resp 200 body ∧ body ≠ []

instance (o : PageOutcome) : Decidable (nonemptySuccess o) :=
  match o with
  | .exn => .isFalse (by rintro ⟨b, h, -⟩; cases h)
  | .resp s b =>
    if h : s = 200 ∧ b ≠ [] then
      .isTrue ⟨b, by rw [h.1], h.2⟩
    else
      .isFalse (by
        rintro ⟨b', he, hn⟩
        cases he
        exact h ⟨rfl, hn⟩)

/-! ## The commit probe (`has_user_commits`, lines 36-45) -/

/-- Outcome of one `session.get` against the commit-listing endpoint: a
transport-level exception or a response with a status and a decoded JSON
array of commit objects (only emptiness of the array matters to the
script; a commit is kept opaque as a `String`). -/
inductive ReqOutcome where
  | exn : ReqOutcome
  | resp (status : Nat) (body : List String) : ReqOutcome
deriving DecidableEq, Repr

/-- The exception escaping `has_user_commits` when a `session.get` raises
(there is no try/except inside the probe itself). -/
inductive ProbeExn where
  | transport : ProbeExn
deriving DecidableEq, Repr

/-- Python truthiness of a decoded JSON array: true iff non-empty. -/
def truthy (l : List String) : Bool :=
  !l.isEmpty

/-- The query parameters of the first (primary) commit request (line 39):
`{"author": username, "per_page": 1}`. -/
def primary_params (username : String) : List (String × String) :=
  [("author", username), ("per_page", "1")]

/-- The query parameters of the second (fallback) commit request
(line 44): `{"all": "true", "per_page": 1, "author": username}`. -/
def fallback_params (username : String) : List (String × String) :=
  [("all", "true"), ("per_page", "1"), ("author", username)]

/-- `has_user_commits(project_id)` (lines 36-45).  The two possible
requests' outcomes are the environment (`primary`, `fallback`); the result
records, in issue order, the parameter lists of the requests actually
issued, together with the returned boolean or the escaped exception:

* primary `session.get` raises → only the primary request was issued and
  the exception propagates;
* `r.status_code == 200 and r.json()` truthy → `return True`, the fallback
  request is never issued;
* otherwise the fallback request is issued; if its `session.get` raises
  the exception propagates, else the result is
  `r.status_code == 200 and bool(r.json())`. -/
def has_user_commits (username : String) (primary fallback : ReqOutcome) :
    List (List (String × String)) × Except ProbeExn Bool :=
  match primary with
  | .exn => ([primary_params username], .error .transport)
  | .resp status body =>
    if status == 200 && truthy body then
      ([primary_params username], .ok true)
    else
      match fallback with
      | .exn => ([primary_params username, fallback_params username],
          .error .transport)
      | .resp status2 body2 =>
        ([primary_params username, fallback_params username],
          .ok (status2 == 200 && truthy body2))

/-! ## The probe orchestration loop (lines 55-69) -/

/-- What `future.result()` yields for one project's probe: the boolean, or
the re-raised exception caught by the `except` clause (line 68). -/
inductive ProbeOutcome where
  | ok (b : Bool) : ProbeOutcome
  | exn : ProbeOutcome
deriving DecidableEq, Repr

/-- One progress line of the orchestration loop: the `✓`-line for a match
(line 65), the blank-marker line for no match (line 67), and the `!`-line
for a caught per-project failure (line 69); each carries the running
`checked` counter, the total, and the project path. -/
inductive ProgressLine where
  | matched (checked total : Nat) (path : String) : ProgressLine
  | unmatched (checked total : Nat) (path : String) : ProgressLine
  | failed (checked total : Nat) (path : String) : ProgressLine
deriving DecidableEq, Repr

/-- Whether a progress line is the `!` (caught failure) line. -/
def ProgressLine.isFailed : ProgressLine → Bool
  | .failed _ _ _ => true
  | _ => false

/-- The `as_completed` loop over probe futures (lines 59-69), run on the
projects in completion order with the running `checked` counter: a `true`
result appends the project to `committed` and prints the matched line, a
`false` result prints the unmatched line, and a raised exception is caught
and prints the failed line (the project is not appended).  Returns the
`committed` list (in completion order) and the printed progress lines. -/
def probeLoop (probe : Project → ProbeOutcome) (total : Nat) :
    Nat → List Project → List Project × List ProgressLine
  | _, [] => ([], [])
  | checked, p :: ps =>
    let c := checked + 1
    let rest := probeLoop probe total c ps
    match probe p with
    | .ok true =>
      (p :: rest.1, .matched c total p.path_with_namespace :: rest.2)
    | .ok false =>
      (rest.1, .unmatched c total p.path_with_namespace :: rest.2)
    | .exn =>
      (rest.1, .failed c total p.path_with_namespace :: rest.2)

/-- The whole orchestration stage (lines 55-69): one probe task per
project, consumed in completion order `order` (a permutation of the
fetched project list), `checked` starting at `0`. -/
def orchestrate (probe : Project → ProbeOutcome) (order : List Project) :
    List Project × List ProgressLine :=
  probeLoop probe order.length 0 order

/-! ## Sort and report (lines 73-81) -/

/-- The sort key of line 73: `p.get("last_activity_at", "")` — the
last-activity timestamp, or the empty string when the field is absent. -/
def sortKey (p : Project) : String :=
  p.last_activity_at.getD ""

/-- The comparison realised by `reverse=True` on line 73: `a` precedes `b`
when `a`'s sort key is at least `b`'s (descending key order). -/
def activityGE (a b : Project) : Prop :=
  sortKey b ≤ sortKey a

instance : DecidableRel activityGE :=
  fun a b => inferInstanceAs (Decidable (sortKey b ≤ sortKey a))

instance : IsTotal Project activityGE :=
  ⟨fun a b => le_total (sortKey b) (sortKey a)⟩

instance : IsTrans Project activityGE :=
  ⟨fun _ _ _ hab hbc => le_trans hbc hab⟩

/-- `committed.sort(key=..., reverse=True)` (line 73): a stable sort into
descending key order, modelled by stable insertion sort under the reversed
order on keys. -/
def committedSort (l : List Project) : List Project :=
  l.insertionSort activityGE

/-- The error escaping the report loop: `p["last_activity_at"]` raises
`KeyError` when the field is absent (line 81). -/
inductive ReportErr where
  | keyError (key : String) : ReportErr
deriving DecidableEq, Repr

/-- One data row of the report (line 81):
`[p["last_activity_at"], p["path_with_namespace"], p["web_url"]]`.
Subscripting a dict without the key raises `KeyError`; only
`last_activity_at` can be absent in this data model. -/
def report_row (p : Project) : Except ReportErr (List String) :=
  match p.last_activity_at with
  | none => .error (.keyError "last_activity_at")
  | some ts => .ok [ts, p.path_with_namespace, p.web_url]

/-- The row loop of lines 80-81: write each project's row, stopping with
the raised `KeyError` at the first project missing the field. -/
def report_rows : List Project → Except ReportErr (List (List String))
  | [] => .ok []
  | p :: ps =>
    match report_row p with
    | .error e => .error e
    | .ok row => (report_rows ps).map (fun rows => row :: rows)

/-- The CSV report body (lines 79-81): the constant header row followed by
one row per committed project, or the `KeyError` aborting the output. -/
def write_report (l : List Project) : Except ReportErr (List (List String)) :=
  (report_rows l).map (fun rows => ["last_activity", "project", "url"] :: rows)

/-! ## Concrete fixtures used by counterexamples and witnesses -/

/-- A concrete project record with all fields present. -/
def projA : Project :=
  ⟨1, "grp/alpha", some "2024-01-02T03:04:05Z", "https://example.test/grp/alpha"⟩

/-- A second concrete project record. -/
def projB : Project :=
  ⟨2, "grp/beta", some "2023-01-02T03:04:05Z", "https://example.test/grp/beta"⟩

/-- A concrete project record missing `last_activity_at`. -/
def projC : Project :=
  ⟨3, "grp/gamma", none, "https://example.test/grp/gamma"⟩

/-- A world where every page is an empty successful response. -/
def worldEmpty : Nat → PageOutcome := fun _ => .resp 200 []

/-- A world whose page 1 answers with status 304 (non-2xx, but not an
error status for `raise_for_status`) and a non-empty body; every other
page is an empty success. -/
def world304 : Nat → PageOutcome := fun p =>
  if p = 1 then .resp 304 [projA] else .resp 200 []

/-- A world whose page 3 suffers a transport error; every other page is an
empty success. -/
def worldExn3 : Nat → PageOutcome := fun p =>
  if p = 3 then .exn else .resp 200 []

/-- A world with two non-empty pages (1 and 2) followed by empty pages up
to the ceiling, and (hypothetically) further data past the ceiling. -/
def worldTwoPages : Nat → PageOutcome := fun p =>
  if p = 1 then .resp 200 [projA, projB]
  else if p = 2 then .resp 200 [projC]
  else if p ≤ MAX_PAGES then .resp 200 []
  else .resp 200 [projA]

/-- A concrete probe environment: `projA` matches, `projB`'s probe raises,
`projC` does not match. -/
def probeW : Project → ProbeOutcome := fun p =>
  if p.id = 1 then .ok true else if p.id = 2 then .exn else .ok false

/-- A concrete completion order for the orchestration stage. -/
def orderW : List Project := [projA, projB, projC]

/-! ## Helper lemmas -/

theorem fetch_page_of_okPage {world : Nat → PageOutcome} {p : Nat}
    (h : okPage (world p)) :
    fetch_page world p = .ok (p, pageBody world p) := by
  obtain ⟨s, b, he, hn⟩ := h
  simp [fetch_page, pageBody, he, hn]

/-- On a completion order all of whose pages succeed, the drain loop
returns no error, the results are the concatenation of the page bodies in
completion order, and exactly the non-empty pages each contribute one
progress observation. -/
theorem drain_ok (world : Nat → PageOutcome) (order : List Nat)
    (h : ∀ p ∈ order, okPage (world p)) :
    drain world order =
      ((order.filter fun p => !(pageBody world p).isEmpty).map
          fun p => ⟨p, (pageBody world p).length⟩,
        .ok (order.flatMap (pageBody world))) := by
  induction order with
  | nil => rfl
  | cons p ps ih =>
    have hp : okPage (world p) := h p (List.mem_cons_self p ps)
    have hps : ∀ q ∈ ps, okPage (world q) := fun q hq => h q (List.mem_cons_of_mem p hq)
    rw [drain, fetch_page_of_okPage hp, ih hps]
    by_cases hemp : (pageBody world p).isEmpty
    · simp [hemp, List.isEmpty_iff.mp hemp]
    · simp [hemp, Except.map]

/-- If every page of the completion order succeeds, `get_all_pages`
returns `.ok` of the concatenation of the bodies in completion order. -/
theorem get_all_pages_ok (world : Nat → PageOutcome) (order : List Nat)
    (h : ∀ p ∈ order, okPage (world p)) :
    (get_all_pages world order).2 = .ok (order.flatMap (pageBody world)) := by
  rw [get_all_pages, drain_ok world order h]

theorem empty_string_le (s : String) : "" ≤ s := by
  rw [String.le_iff_toList_le]
  exact List.nil_le

/-- A transport error or a 4xx/5xx status makes `fetch_page` raise. -/
theorem fetch_page_error_of_fatal {world : Nat → PageOutcome} {p : Nat}
    (h : world p = .exn ∨
      ∃ s b, world p = .resp s b ∧ 400 ≤ s ∧ s < 600) :
    ∃ e, fetch_page world p = .error e := by
  rcases h with h | ⟨s, b, h, hs⟩
  · exact ⟨.transport, by simp [fetch_page, h]⟩
  · exact ⟨.http s, by simp [fetch_page, h, raise_for_status, hs.1, hs.2]⟩

/-- If some page of the completion order makes `fetch_page` raise, the
drain loop propagates an error. -/
theorem drain_error_of_mem {world : Nat → PageOutcome} {order : List Nat}
    {p : Nat} (hp : p ∈ order)
    (he : ∃ e, fetch_page world p = .error e) :
    ∃ e, (drain world order).2 = .error e := by
  induction order with
  | nil => cases hp
  | cons q qs ih =>
    rcases List.mem_cons.mp hp with rfl | hq
    · obtain ⟨e, hE⟩ := he
      exact ⟨e, by rw [drain, hE]⟩
    · cases hfq : fetch_page world q with
      | error e => exact ⟨e, by rw [drain, hfq]⟩
      | ok pr =>
        obtain ⟨pg, data⟩ := pr
        obtain ⟨e, hE⟩ := ih hq
        refine ⟨e, ?_⟩
        rw [drain, hfq]
        by_cases hemp : data.isEmpty
        · simpa [hemp] using hE
        · simp [hemp, hE, Except.map]

/-- The drain loop reads the world only at the pages of the completion
order. -/
theorem drain_congr (w1 w2 : Nat → PageOutcome) (order : List Nat)
    (h : ∀ p ∈ order, w1 p = w2 p) :
    drain w1 order = drain w2 order := by
  induction order with
  | nil => rfl
  | cons p ps ih =>
    have hp := h p (List.mem_cons_self p ps)
    have hps := ih fun q hq => h q (List.mem_cons_of_mem p hq)
    rw [drain, drain, fetch_page, fetch_page, hp, hps]

/-- The committed list built by the orchestration loop is the completion
order filtered to the projects whose probe returned `true`; it does not
depend on the `checked` counter or the reported total. -/
theorem probeLoop_fst (probe : Project → ProbeOutcome) (total : Nat)
    (checked : Nat) (order : List Project) :
    (probeLoop probe total checked order).1 =
      order.filter (fun p => probe p == .ok true) := by
  induction order generalizing checked with
  | nil => rfl
  | cons p ps ih =>
    rw [probeLoop]
    cases hp : probe p with
    | ok b => cases b <;> simp [hp, ih, List.filter_cons]
    | exn => simp [hp, ih, List.filter_cons]

/-- The orchestration loop prints exactly one `!` (failed) line per probe
that raised. -/
theorem probeLoop_failed_count (probe : Project → ProbeOutcome)
    (total : Nat) (checked : Nat) (order : List Project) :
    ((probeLoop probe total checked order).2.countP ProgressLine.isFailed) =
      order.countP (fun p => probe p == .exn) := by
  induction order generalizing checked with
  | nil => rfl
  | cons p ps ih =>
    rw [probeLoop]
    cases hp : probe p with
    | ok b =>
      cases b <;>
        simp [hp, ih, List.countP_cons, ProgressLine.isFailed]
    | exn => simp [hp, ih, List.countP_cons, ProgressLine.isFailed]

/-- A list containing a project without `last_activity_at` makes the row
loop raise a `KeyError`. -/
theorem report_rows_error_of_missing {l : List Project}
    (h : ∃ p ∈ l, p.last_activity_at = none) :
    ∃ e, report_rows l = .error e := by
  induction l with
  | nil =>
    obtain ⟨p, hp, -⟩ := h
    cases hp
  | cons q qs ih =>
    cases hq : q.last_activity_at with
    | none =>
      exact ⟨.keyError "last_activity_at", by simp [report_rows, report_row, hq]⟩
    | some ts =>
      obtain ⟨p, hp, hnone⟩ := h
      rcases List.mem_cons.mp hp with rfl | hmem
      · rw [hq] at hnone
        cases hnone
      · obtain ⟨e, hE⟩ := ih ⟨p, hmem, hnone⟩
        exact ⟨e, by simp [report_rows, report_row, hq, hE, Except.map]⟩

/-! ## Claims -/

/-- C1: if pages `1..N` are non-empty successes and every later page up to
the speculative ceiling is an empty success, then for every completion
order of the page fetches `get_all_pages` returns (without error) exactly
the items of those `N` pages — a permutation of their concatenation, so in
particular the same set of items for every completion order. -/
theorem claim1_paginator_union
    (world : Nat → PageOutcome) (N : Nat) (hN : N ≤ MAX_PAGES)
    (hfull : ∀ p ∈ List.range' 1 N, nonemptySuccess (world p))
    (hempty : ∀ p ∈ List.range' (1 + N) (MAX_PAGES - N), world p = .resp 200 [])
    (order : List Nat) (horder : order.Perm submitted_pages) :
    ∃ l, (get_all_pages world order).2 = .ok l ∧
      l.Perm ((List.range' 1 N).flatMap (pageBody world)) := by
  have hsplit : List.range' 1 N ++ List.range' (1 + N) (MAX_PAGES - N) =
      submitted_pages := by
    rw [submitted_pages, List.range'_append_1 1 N (MAX_PAGES - N)]
    congr 1
    omega
  have hok : ∀ p ∈ order, okPage (world p) := by
    intro p hp
    have hmem : p ∈ submitted_pages := horder.mem_iff.mp hp
    rw [← hsplit, List.mem_append] at hmem
    rcases hmem with hm | hm
    · obtain ⟨b, hb, -⟩ := hfull p hm
      exact ⟨200, b, hb, by decide⟩
    · exact ⟨200, [], hempty p hm, by decide⟩
  refine ⟨order.flatMap (pageBody world), get_all_pages_ok world order hok, ?_⟩
  have h1 : (order.flatMap (pageBody world)).Perm
      (submitted_pages.flatMap (pageBody world)) :=
    horder.flatMap_right _
  have h2 : submitted_pages.flatMap (pageBody world) =
      (List.range' 1 N).flatMap (pageBody world) := by
    rw [← hsplit, List.flatMap_append]
    have hnil : (List.range' (1 + N) (MAX_PAGES - N)).flatMap (pageBody world)
        = [] := by
      rw [List.flatMap_eq_nil_iff]
      intro p hp
      simp [pageBody, hempty p hp]
    rw [hnil, List.append_nil]
  rw [h2] at h1
  exact h1

set_option maxRecDepth 4000 in
/-- Witness for C1 at a concrete world (pages 1 and 2 non-empty, pages 3
to 200 empty), run in submission order. -/
theorem claim1_witness :
    ∃ l, (get_all_pages worldTwoPages submitted_pages).2 = .ok l ∧
      l.Perm ((List.range' 1 2).flatMap (pageBody worldTwoPages)) :=
  claim1_paginator_union worldTwoPages 2 (by decide) (by decide) (by decide)
    submitted_pages (List.Perm.refl _)

set_option maxRecDepth 4000 in
/-- C2 as stated is false: status 304 is not 2xx, yet
`r.raise_for_status()` raises only for statuses in `[400, 600)`, so a page
answering 304 with a non-empty body does not fail the run — here page 1
answers 304 with one item and `get_all_pages` still returns a result,
even including that page's items. -/
theorem claim2_counterexample :
    (¬ (200 ≤ 304 ∧ 304 < 300)) ∧
    world304 1 = .resp 304 [projA] ∧
    (get_all_pages world304 submitted_pages).2 = .ok [projA] := by
  refine ⟨by decide, rfl, ?_⟩
  rfl

/-- C2 amended: if any single page fetch in the submitted range suffers a
transport error or answers with a 4xx/5xx status, then for that completion
order the pagination stage fails as a whole — `get_all_pages` propagates
an error and returns no result list. -/
theorem claim2_fatal_propagates (world : Nat → PageOutcome)
    (order : List Nat) (p : Nat) (hp : p ∈ order)
    (hfatal : world p = .exn ∨
      ∃ s b, world p = .resp s b ∧ 400 ≤ s ∧ s < 600) :
    ∃ e, (get_all_pages world order).2 = .error e :=
  drain_error_of_mem hp (fetch_page_error_of_fatal hfatal)

set_option maxRecDepth 4000 in
/-- Witness for the amended C2: a transport error on page 3 fails the
whole run. -/
theorem claim2_fatal_witness :
    ∃ e, (get_all_pages worldExn3 submitted_pages).2 = .error e :=
  claim2_fatal_propagates worldExn3 submitted_pages 3 (by decide) (Or.inl rfl)

/-- C3: for any probe behaviour and any completion order over the project
set, with exactly `J` projects whose probe returns `true` and exactly `K`
whose probe raises, the orchestration stage completes (the exception is
caught, never re-raised): the committed list is exactly the
`true`-returning projects, has size `J`, excludes every project whose
probe raised, and exactly `K` failure lines are reported. -/
theorem claim3_orchestrator (probe : Project → ProbeOutcome)
    (order : List Project) (J K : Nat)
    (hJ : (order.countP fun p => probe p == .ok true) = J)
    (hK : (order.countP fun p => probe p == .exn) = K) :
    (orchestrate probe order).1 =
      order.filter (fun p => probe p == .ok true) ∧
    (orchestrate probe order).1.length = J ∧
    (∀ p ∈ order, probe p = .exn → p ∉ (orchestrate probe order).1) ∧
    ((orchestrate probe order).2.countP ProgressLine.isFailed) = K := by
  have hfst : (orchestrate probe order).1 =
      order.filter (fun p => probe p == .ok true) :=
    probeLoop_fst probe order.length 0 order
  refine ⟨hfst, ?_, ?_, ?_⟩
  · rw [hfst, ← List.countP_eq_length_filter, hJ]
  · intro p hp hexn hmem
    rw [hfst] at hmem
    have := List.of_mem_filter hmem
    simp [hexn] at this
  · rw [← hK]
    exact probeLoop_failed_count probe order.length 0 order

/-- Witness for C3: three projects, one match, one raised probe, one
non-match (`J = 1`, `K = 1`). -/
theorem claim3_witness :
    (orchestrate probeW orderW).1 =
      orderW.filter (fun p => probeW p == .ok true) ∧
    (orchestrate probeW orderW).1.length = 1 ∧
    (∀ p ∈ orderW, probeW p = .exn → p ∉ (orchestrate probeW orderW).1) ∧
    ((orchestrate probeW orderW).2.countP ProgressLine.isFailed) = 1 :=
  claim3_orchestrator probeW orderW 1 1 (by decide) (by decide)

/-- C4: when the primary authorship-filtered request answers 200 with at
least one item, `has_user_commits` returns `True` and the fallback request
is never issued — whatever its outcome would have been, the list of
requests issued is just the primary one (fallback request count 0). -/
theorem claim4_short_circuit (username : String) (body : List String)
    (hbody : body ≠ []) (fallback : ReqOutcome) :
    has_user_commits username (.resp 200 body) fallback =
      ([primary_params username], .ok true) := by
  simp [has_user_commits, truthy, hbody]

/-- Witness for C4: the primary request yields one commit; the fallback
environment would even raise, but it is never consulted. -/
theorem claim4_witness :
    has_user_commits "alice" (.resp 200 ["c1"]) .exn =
      ([primary_params "alice"], .ok true) :=
  claim4_short_circuit "alice" ["c1"] (by decide) .exn

/-- C5: when both the primary and the fallback requests answer with
non-2xx statuses, `has_user_commits` returns `False` without raising
(both requests were issued; neither status is promoted to an error). -/
theorem claim5_non2xx_false (username : String) (s1 s2 : Nat)
    (b1 b2 : List String)
    (h1 : ¬ (200 ≤ s1 ∧ s1 < 300)) (h2 : ¬ (200 ≤ s2 ∧ s2 < 300)) :
    has_user_commits username (.resp s1 b1) (.resp s2 b2) =
      ([primary_params username, fallback_params username], .ok false) := by
  have hs1 : s1 ≠ 200 := by omega
  have hs2 : s2 ≠ 200 := by omega
  simp [has_user_commits, hs1, hs2]

/-- Witness for C5: primary 404, fallback 500 — result `False`, no
exception. -/
theorem claim5_witness :
    has_user_commits "alice" (.resp 404 []) (.resp 500 ["c1"]) =
      ([primary_params "alice", fallback_params "alice"], .ok false) :=
  claim5_non2xx_false "alice" 404 500 [] ["c1"] (by decide) (by decide)

set_option maxRecDepth 4000 in
/-- C6 as stated is false: the progress print (line 31) sits inside
`if data:`, so a completed page whose body is empty emits no observation.
Here all 200 submitted pages complete successfully with empty bodies yet
the run emits zero progress observations, not one per page. -/
theorem claim6_counterexample :
    submitted_pages.length = 200 ∧
    (∀ p ∈ submitted_pages, okPage (worldEmpty p)) ∧
    (get_all_pages worldEmpty submitted_pages).1 = [] := by
  exact ⟨rfl, by decide, rfl⟩

/-- C6 amended: on a run where every page fetch succeeds, exactly one
progress observation (page number and item count) is emitted per completed
page whose body is non-empty, in completion order; pages with an empty
body emit none. -/
theorem claim6_progress_per_nonempty_page (world : Nat → PageOutcome)
    (order : List Nat) (h : ∀ p ∈ order, okPage (world p)) :
    (get_all_pages world order).1 =
      (order.filter fun p => !(pageBody world p).isEmpty).map
        (fun p => ⟨p, (pageBody world p).length⟩) := by
  rw [get_all_pages, drain_ok world order h]

set_option maxRecDepth 4000 in
/-- Witness for the amended C6 on a concrete world with two non-empty
pages. -/
theorem claim6_progress_witness :
    (get_all_pages worldTwoPages submitted_pages).1 =
      (submitted_pages.filter
          fun p => !(pageBody worldTwoPages p).isEmpty).map
        (fun p => ⟨p, (pageBody worldTwoPages p).length⟩) :=
  claim6_progress_per_nonempty_page worldTwoPages submitted_pages (by decide)

/-- C7: the paginator submits exactly one fetch task per page number from
1 to the speculative ceiling (`submitted_pages` enumerates exactly
`1..MAX_PAGES`, without repetition); the run never consults the world
beyond the pages of its completion order, so two worlds that agree on the
fetched pages produce identical runs — pages past the ceiling are
silently never fetched; and a world whose submitted pages all succeed
(regardless of what lies past the ceiling) yields a result, not an
error. -/
theorem claim7_submitted_range :
    (∀ p, p ∈ submitted_pages ↔ 1 ≤ p ∧ p ≤ MAX_PAGES) ∧
    submitted_pages.Nodup ∧
    (∀ w1 w2 : Nat → PageOutcome, ∀ order : List Nat,
      (∀ p ∈ order, w1 p = w2 p) →
      get_all_pages w1 order = get_all_pages w2 order) ∧
    (∀ world : Nat → PageOutcome, ∀ order : List Nat,
      order.Perm submitted_pages →
      (∀ p ∈ submitted_pages, okPage (world p)) →
      ∃ l, (get_all_pages world order).2 = .ok l) := by
  refine ⟨?_, List.nodup_range' 1 MAX_PAGES, ?_, ?_⟩
  · intro p
    rw [submitted_pages, List.mem_range'_1]
    omega
  · exact fun w1 w2 order h => drain_congr w1 w2 order h
  · intro world order horder hok
    exact ⟨order.flatMap (pageBody world),
      get_all_pages_ok world order
        (fun p hp => hok p (horder.mem_iff.mp hp))⟩

set_option maxRecDepth 4000 in
/-- Witness for C7: page 3 is in the submitted range, and a concrete
world whose listing (hypothetically) continues past the ceiling still
completes without error. -/
theorem claim7_witness :
    (3 ∈ submitted_pages ↔ 1 ≤ 3 ∧ 3 ≤ MAX_PAGES) ∧
    (∃ l, (get_all_pages worldTwoPages submitted_pages).2 = .ok l) :=
  ⟨claim7_submitted_range.1 3,
    claim7_submitted_range.2.2.2 worldTwoPages submitted_pages
      (List.Perm.refl _) (by decide)⟩

/-- C8: when the upstream listing never repeats a project id across the
submitted pages, the aggregated pagination result has pairwise-distinct
ids for every completion order; and the later stages only produce derived
collections out of the very records fetched — every committed project is
one of the input records, and the sort returns a permutation of its
input (no record is replaced or altered; mutation does not exist in this
value-level model, so immutability is rendered as exact preservation of
the fetched record values). -/
theorem claim8_invariants (world : Nat → PageOutcome) (order : List Nat)
    (horder : order.Perm submitted_pages)
    (hok : ∀ p ∈ submitted_pages, okPage (world p))
    (hids : ((submitted_pages.flatMap (pageBody world)).map Project.id).Nodup) :
    (∃ l, (get_all_pages world order).2 = .ok l ∧
      (l.map Project.id).Nodup) ∧
    (∀ probe : Project → ProbeOutcome, ∀ porder : List Project,
      ∀ q ∈ (orchestrate probe porder).1, q ∈ porder) ∧
    (∀ c : List Project, (committedSort c).Perm c) := by
  refine ⟨?_, ?_, ?_⟩
  · have hok' : ∀ p ∈ order, okPage (world p) :=
      fun p hp => hok p (horder.mem_iff.mp hp)
    refine ⟨order.flatMap (pageBody world),
      get_all_pages_ok world order hok', ?_⟩
    have hperm : (order.flatMap (pageBody world)).Perm
        (submitted_pages.flatMap (pageBody world)) :=
      horder.flatMap_right _
    exact ((hperm.map Project.id).nodup_iff).mpr hids
  · intro probe porder q hq
    have h1 : (orchestrate probe porder).1 =
        porder.filter (fun p => probe p == .ok true) :=
      probeLoop_fst probe porder.length 0 porder
    exact List.mem_of_mem_filter (h1 ▸ hq)
  · exact fun c => List.perm_insertionSort activityGE c

set_option maxRecDepth 4000 in
/-- Witness for C8: the two-page world carries three records with
distinct ids. -/
theorem claim8_witness :
    (∃ l, (get_all_pages worldTwoPages submitted_pages).2 = .ok l ∧
      (l.map Project.id).Nodup) ∧
    (∀ probe : Project → ProbeOutcome, ∀ porder : List Project,
      ∀ q ∈ (orchestrate probe porder).1, q ∈ porder) ∧
    (∀ c : List Project, (committedSort c).Perm c) :=
  claim8_invariants worldTwoPages submitted_pages (List.Perm.refl _)
    (by decide) (by decide)

/-- C9: a committed project lacking `last_activity_at` is tolerated by the
sort — its key is substituted by the empty string, which is a minimum, so
descending order places it at the bottom, and the sort returns a bona fide
sorted permutation — but the report-row construction that follows raises a
`KeyError` on `p["last_activity_at"]`, aborting report output. -/
theorem claim9_missing_activity (committed : List Project) (p : Project)
    (hmem : p ∈ committed) (hnone : p.last_activity_at = none) :
    sortKey p = "" ∧
    (committedSort committed).Perm committed ∧
    List.Sorted activityGE (committedSort committed) ∧
    (∀ q ∈ committedSort committed, sortKey p ≤ sortKey q) ∧
    ∃ e, write_report (committedSort committed) = .error e := by
  have hkey : sortKey p = "" := by simp [sortKey, hnone]
  refine ⟨hkey, List.perm_insertionSort activityGE committed,
    List.sorted_insertionSort activityGE committed, ?_, ?_⟩
  · intro q _
    rw [hkey]
    exact empty_string_le (sortKey q)
  · have hmem' : p ∈ committedSort committed :=
      (List.perm_insertionSort activityGE committed).mem_iff.mpr hmem
    obtain ⟨e, hE⟩ := report_rows_error_of_missing ⟨p, hmem', hnone⟩
    exact ⟨e, by rw [write_report, hE]; rfl⟩

/-- Witness for C9: a committed set containing `projC`, which lacks the
field. -/
theorem claim9_witness :
    sortKey projC = "" ∧
    (committedSort [projA, projC]).Perm [projA, projC] ∧
    List.Sorted activityGE (committedSort [projA, projC]) ∧
    (∀ q ∈ committedSort [projA, projC], sortKey projC ≤ sortKey q) ∧
    ∃ e, write_report (committedSort [projA, projC]) = .error e :=
  claim9_missing_activity [projA, projC] projC (by decide) rfl

/-- C10: given a primary response, the fallback request is issued exactly
when the primary did not answer 200 with a non-empty body (so also on a
200 with an empty body and on any non-2xx status); and the fallback's
parameters differ from the primary's only by the additional `all=true` —
the `author` filter and the `per_page=1` limit are identical in both, the
primary has no `all` key, and the fallback's keys are exactly the
primary's plus `all`. -/
theorem claim10_fallback_exact (username : String) (s : Nat)
    (b : List String) (fallback : ReqOutcome) :
    (has_user_commits username (.resp s b) fallback).1 =
      (if s = 200 ∧ b ≠ [] then [primary_params username]
       else [primary_params username, fallback_params username]) ∧
    (fallback_params username).lookup "author" =
      (primary_params username).lookup "author" ∧
    (fallback_params username).lookup "per_page" =
      (primary_params username).lookup "per_page" ∧
    (fallback_params username).lookup "all" = some "true" ∧
    (primary_params username).lookup "all" = none ∧
    ((fallback_params username).map Prod.fst).Perm
      ("all" :: (primary_params username).map Prod.fst) := by
  refine ⟨?_, rfl, rfl, rfl, rfl,
    .cons "all" (List.Perm.swap "author" "per_page" [])⟩
  by_cases h : s = 200 ∧ b ≠ []
  · simp [has_user_commits, truthy, h.1, h.2, h]
  · have hfalse : (s == 200 && truthy b) = false := by
      rcases not_and_or.mp h with hs | hb
      · simp [hs]
      · simp [truthy, not_not.mp hb]
    cases fallback <;> simp [has_user_commits, hfalse, h]

/-- Witness for C10: the primary answers 200 with an *empty* body, so the
fallback request is issued even without an error status. -/
theorem claim10_witness :
    (has_user_commits "alice" (.resp 200 []) (.resp 200 ["c1"])).1 =
      (if (200 : Nat) = 200 ∧ ([] : List String) ≠ [] then
        [primary_params "alice"]
       else [primary_params "alice", fallback_params "alice"]) ∧
    (fallback_params "alice").lookup "author" =
      (primary_params "alice").lookup "author" ∧
    (fallback_params "alice").lookup "per_page" =
      (primary_params "alice").lookup "per_page" ∧
    (fallback_params "alice").lookup "all" = some "true" ∧
    (primary_params "alice").lookup "all" = none ∧
    ((fallback_params "alice").map Prod.fst).Perm
      ("all" :: (primary_params "alice").map Prod.fst) :=
  claim10_fallback_exact "alice" 200 [] (.resp 200 ["c1"])
